import Mathlib

/-!
Shallow embedding of `src/main.rs` of the `rifme` CLI tool (a client of the
rifme.net rhyme service) and verification of its specification.

Modelling conventions:
* Rust `i8` values are modelled as `Int`; `format!("{}", n)` on an integer is
  modelled by `formatInt`, a decimal formatter producing an optional leading
  minus sign followed by digits, exactly as Rust's `Display` for `i8` does.
* The HTTP transport (`reqwest`) is abstracted into a `Network` record of
  oracles: client construction, sending a request, and decoding the body,
  each of which may fail with a `reqwest`-style error (a `String` message).
  `scraper`'s `Html::parse_document` is abstracted into a `parse` oracle
  producing the document-order list of elements of the parsed document.
* Rust panics (`.unwrap()` on an `Err`/`None`) abort the whole invocation,
  exactly like propagated errors do in this program (the spec's §7 treats
  both as the same fatal abort); both are modelled as `Except.error`.
* `futures::future::join_all` followed by unwrapping each result in order is
  modelled by sequencing the list of `Except` results: the observable
  outcome (the concatenated list, or the first failure in task order) is
  identical.
-/

/-- The decimal digit character for `d % 10` (code 48 + d). -/
def digitChar : Nat → Char
  | 0 => '0'
  | 1 => '1'
  | 2 => '2'
  | 3 => '3'
  | 4 => '4'
  | 5 => '5'
  | 6 => '6'
  | 7 => '7'
  | 8 => '8'
  | _ => '9'

/-- Decimal digits of `n`, most significant first, with structural fuel so
the definition reduces by computation; the fuel never runs out when it
starts at `n`, since `(n + 1) / 10 ≤ n`. -/
def natDigitsCore : Nat → Nat → List Char
  | _, 0 => []
  | 0, _ + 1 => []
  | fuel + 1, n + 1 =>
    natDigitsCore fuel ((n + 1) / 10) ++ [digitChar ((n + 1) % 10)]

/-- Decimal digits of `n`, most significant first; empty for `0`. -/
def natDigits (n : Nat) : List Char :=
  natDigitsCore n n

/-- Decimal representation of a natural number. -/
def natRepr (n : Nat) : String :=
  if n = 0 then "0" else String.mk (natDigits n)

/-- `format!("{}", n)` for a signed integer: minus sign when negative, then
the decimal digits (Rust's `Display` for `i8`). -/
def formatInt (n : Int) : String :=
  if n < 0 then "-" ++ natRepr n.natAbs else natRepr n.natAbs

/-- `enum PartOfSpeech { Noun = 1, Adj, Verb, Other = 0 }` from the source. -/
inductive PartOfSpeech
  | Noun
  | Adj
  | Verb
  | Other
deriving DecidableEq

/-- The Rust cast `part as i8`: the enum discriminants, `Noun = 1`,
`Adj = 2`, `Verb = 3`, `Other = 0`. -/
def PartOfSpeech.asI8 : PartOfSpeech → Int
  | .Noun => 1
  | .Adj => 2
  | .Verb => 3
  | .Other => 0

/-- `struct RifmeOptions` from the source: all three filters optional. -/
structure RifmeOptions where
  syllables : Option Int := none
  part : Option PartOfSpeech := none
  emphasis : Option Int := none
deriving DecidableEq

/-- `fn build_cookie(options: RifmeOptions) -> String` from the source: start
from the empty string, append `slogovcookie={};` when syllables is present,
then append `chastcookie={};` (with the `part as i8` cast) when the part of
speech is present. -/
def build_cookie (options : RifmeOptions) : String :=
  let cookie : String := ""
  let cookie : String :=
    match options.syllables with
    | some syllables => cookie ++ "slogovcookie=" ++ formatInt syllables ++ ";"
    | none => cookie
  let cookie : String :=
    match options.part with
    | some part => cookie ++ "chastcookie=" ++ formatInt part.asI8 ++ ";"
    | none => cookie
  cookie

/-- A `key=value;` cookie pair, as the spec (§4.1) describes the encoding. -/
def keyValuePair (key value : String) : String :=
  key ++ "=" ++ value ++ ";"

/-- Follows the spec's words (§4.1): encode present fields as `key=value;`
pairs, omit absent fields entirely, syllables pair first, part-of-speech pair
(with the part encoded as its integer code) second. Compared against the
source's `build_cookie`. -/
def cookieSpecString (o : RifmeOptions) : String :=
  (match o.syllables with
   | some s => keyValuePair "slogovcookie" (formatInt s)
   | none => "") ++
  (match o.part with
   | some p => keyValuePair "chastcookie" (formatInt p.asI8)
   | none => "")

/-- Validity of one byte of an HTTP header value, as checked by
`http::HeaderValue::try_from`: visible ASCII or space (`b >= 32 && b != 127`)
or horizontal tab. The cookie strings here are pure ASCII, so bytes and
chars coincide. -/
def validHeaderChar (c : Char) : Bool :=
  (32 ≤ c.toNat && c.toNat != 127) || c.toNat == 9

/-- `header::HeaderValue::try_from` on a string: succeeds exactly when every
byte is valid in a header value. -/
def headerValueTryFrom (s : String) : Option String :=
  if s.data.all validHeaderChar then some s else none

/-- The characters the cookie encoder can emit: ASCII digits (48–57), ASCII
letters (65–90, 97–122), `=` (61), `;` (59) and the minus sign `-` (45). -/
def allowedCookieChar (c : Char) : Prop :=
  (48 ≤ c.toNat ∧ c.toNat ≤ 57) ∨ (65 ≤ c.toNat ∧ c.toNat ≤ 90) ∨
    (97 ≤ c.toNat ∧ c.toNat ≤ 122) ∨ c.toNat = 61 ∨ c.toNat = 59 ∨
    c.toNat = 45

instance : DecidablePred allowedCookieChar := fun c => by
  unfold allowedCookieChar; infer_instance

/-- Error kinds of the program, per the spec §7: a network error carrying the
`reqwest` error message, and the parse error for missing document structure. -/
inductive RifmeError
  | network (msg : String)
  | parse
deriving DecidableEq

/-- The HTTP transport abstracted: `build` is `Client::builder()...build()`,
`send` maps a URL and the cookie header to a raw response, `text` decodes a
response body to text. Errors are `reqwest::Error` messages. -/
structure Network where
  build : Except String Unit
  send : String → String → Except String String
  text : String → Except String String

/-- `async fn get_page(url, options)` from the source: build the cookie
header (`HeaderValue::try_from(...).unwrap()` — a panic if the cookie is not
a valid header value), build the client (the `?` operator), send the request
(`.unwrap()` — a panic on transport failure), and decode the body (`.await`
on `text()`, whose error is returned). -/
def get_page (net : Network) (url : String) (options : RifmeOptions) :
    Except RifmeError String :=
  match headerValueTryFrom (build_cookie options) with
  | none => Except.error (RifmeError.network "invalid header value")
  | some cookie =>
    match net.build with
    | Except.error e => Except.error (RifmeError.network e)
    | Except.ok _ =>
      match net.send url cookie with
      | Except.error e => Except.error (RifmeError.network e)
      | Except.ok resp =>
        match net.text resp with
        | Except.error e => Except.error (RifmeError.network e)
        | Except.ok body => Except.ok body

/-- An HTML element: tag name and attributes in document order. -/
structure Element where
  tag : String
  attrs : List (String × String)
deriving DecidableEq

/-- Attribute lookup on an element (first attribute with the given name),
as `li.value().attr(name)` does. -/
def Element.attr (el : Element) (name : String) : Option String :=
  (el.attrs.find? (fun p => p.1 == name)).map (fun p => p.2)

/-- A parsed HTML document, abstracted as its elements in document order. -/
abbrev Html := List Element

/-- The CSS selector `li[class=riLi]`: an `li` element whose `class`
attribute equals the literal `riLi`. -/
def riLiSelector (el : Element) : Bool :=
  el.tag == "li" && el.attr "class" == some "riLi"

/-- `fn get_rhymes(doc: Html)` from the source: select all elements matching
`li[class=riLi]` in document order and read the `data-w` attribute off each;
the source's `.attr("data-w").unwrap()` panic on a missing attribute is
modelled as `RifmeError.parse`, aborting the whole extraction. -/
def get_rhymes (doc : Html) : Except RifmeError (List String) :=
  (doc.filter riLiSelector).mapM (fun li =>
    match li.attr "data-w" with
    | some w => Except.ok w
    | none => Except.error RifmeError.parse)

/-- The URL built inside `get_rifme`: `https://rifme.net/r/{word}`, with
`/{emphasis}` appended when the emphasis option is present. -/
def get_rifme_url (word : String) (options : RifmeOptions) : String :=
  let url := "https://rifme.net/r/" ++ word
  match options.emphasis with
  | some emphasis => url ++ "/" ++ formatInt emphasis
  | none => url

/-- `async fn get_rifme(word, options)` from the source: build the URL, fetch
the page (`.unwrap()` — panic on failure, modelled as propagation), parse the
document, extract the rhymes (`.unwrap()` likewise). -/
def get_rifme (net : Network) (parse : String → Html) (word : String)
    (options : RifmeOptions) : Except RifmeError (List String) := do
  let url := get_rifme_url word options
  let body ← get_page net url options
  let doc := parse body
  get_rhymes doc

/-- `struct Args` from the source: the parsed command line. -/
structure Args where
  word : String
  syllables : Option Int := none
  part : Option PartOfSpeech := none
  emphasis : Option Int := none

/-- `fn main` from the source, up to printing: if
`args.syllables.unwrap_or(-1) > 0`, one `get_rifme` call with the given
options; otherwise eight `get_rifme` calls for syllable counts 1..=8 (each
inheriting the part and emphasis filters), joined and unwrapped in task
order and flattened. (Named `rifmeMain` because Lean reserves `main` for an
`IO` entry point; the printing and process abort of the source's `main` are
outside the embedding.) -/
def rifmeMain (net : Network) (parse : String → Html) (args : Args) :
    Except RifmeError (List String) :=
  if args.syllables.getD (-1) > 0 then
    get_rifme net parse args.word
      ⟨args.syllables, args.part, args.emphasis⟩
  else
    (((List.range' 1 8).map (fun (syllables : Nat) =>
        get_rifme net parse args.word
          ⟨some (Int.ofNat syllables), args.part, args.emphasis⟩)).mapM id).map
      List.flatten

/-- A deterministic transport for concrete runs: the client builds, every
request succeeds, and the response body echoes the cookie header back. -/
def demoNet : Network where
  build := Except.ok ()
  send := fun _ cookie => Except.ok cookie
  text := fun resp => Except.ok resp

/-- A transport that fails exactly for the syllable-count-5 cookie and
succeeds for every other request. -/
def failNet : Network where
  build := Except.ok ()
  send := fun _ cookie =>
    if cookie = "slogovcookie=5;" then Except.error "connection reset"
    else Except.ok cookie
  text := fun resp => Except.ok resp

/-- A parser oracle for concrete runs: every body parses to one rhyme item
carrying the body itself and one fixed item carrying `dup`. -/
def demoParse (body : String) : Html :=
  [⟨"li", [("class", "riLi"), ("data-w", body)]⟩,
   ⟨"li", [("class", "riLi"), ("data-w", "dup")]⟩]

/-- A document whose second matching list item lacks the `data-w`
attribute while its siblings are well-formed. -/
def malformedDoc : Html :=
  [⟨"li", [("class", "riLi"), ("data-w", "хорошо")]⟩,
   ⟨"li", [("class", "riLi")]⟩,
   ⟨"li", [("class", "riLi"), ("data-w", "плохо")]⟩]

/-- A document with exactly three matching list items carrying `а`, `б`,
`в` in that order, interleaved with non-matching elements. -/
def threeItemDoc : Html :=
  [⟨"div", []⟩,
   ⟨"li", [("class", "riLi"), ("data-w", "а")]⟩,
   ⟨"li", [("class", "other"), ("data-w", "x")]⟩,
   ⟨"li", [("class", "riLi"), ("data-w", "б")]⟩,
   ⟨"li", [("class", "riLi"), ("data-w", "в")]⟩]

/-! ### Character-level facts about the decimal formatter and the cookie -/

theorem digitChar_code (d : Nat) :
    48 ≤ (digitChar d).toNat ∧ (digitChar d).toNat ≤ 57 := by
  match d with
  | 0 | 1 | 2 | 3 | 4 | 5 | 6 | 7 | 8 => decide
  | n + 9 =>
    show 48 ≤ ('9' : Char).toNat ∧ ('9' : Char).toNat ≤ 57
    decide

theorem natDigitsCore_code (fuel : Nat) :
    ∀ n, ∀ c ∈ natDigitsCore fuel n, 48 ≤ c.toNat ∧ c.toNat ≤ 57 := by
  induction fuel with
  | zero => intro n c hc; cases n <;> simp [natDigitsCore] at hc
  | succ f ih =>
    intro n c hc
    cases n with
    | zero => simp [natDigitsCore] at hc
    | succ m =>
      rw [natDigitsCore] at hc
      rcases List.mem_append.mp hc with h | h
      · exact ih _ c h
      · rw [List.mem_singleton.mp h]; exact digitChar_code _

theorem natDigits_code (n : Nat) :
    ∀ c ∈ natDigits n, 48 ≤ c.toNat ∧ c.toNat ≤ 57 :=
  natDigitsCore_code n n

theorem natRepr_code (n : Nat) :
    ∀ c ∈ (natRepr n).data, 48 ≤ c.toNat ∧ c.toNat ≤ 57 := by
  unfold natRepr
  split
  · intro c hc; rw [show ("0" : String).data = ['0'] from rfl] at hc
    rw [List.mem_singleton.mp hc]; decide
  · exact natDigits_code n

theorem formatInt_allowed (n : Int) :
    ∀ c ∈ (formatInt n).data, allowedCookieChar c := by
  have digit_allowed : ∀ c : Char, 48 ≤ c.toNat ∧ c.toNat ≤ 57 →
      allowedCookieChar c := fun c h => Or.inl h
  unfold formatInt
  split
  · intro c hc
    rw [String.data_append] at hc
    rcases List.mem_append.mp hc with h | h
    · have hdash : c ∈ ['-'] := h
      rw [List.mem_singleton.mp hdash]
      unfold allowedCookieChar; decide
    · exact digit_allowed c (natRepr_code _ c h)
  · intro c hc
    exact digit_allowed c (natRepr_code _ c hc)

theorem append_allowed {a b : String}
    (ha : ∀ c ∈ a.data, allowedCookieChar c)
    (hb : ∀ c ∈ b.data, allowedCookieChar c) :
    ∀ c ∈ (a ++ b).data, allowedCookieChar c := by
  intro c hc
  rw [String.data_append] at hc
  rcases List.mem_append.mp hc with h | h
  · exact ha c h
  · exact hb c h

theorem build_cookie_allowed (o : RifmeOptions) :
    ∀ c ∈ (build_cookie o).data, allowedCookieChar c := by
  rcases o with ⟨syl, part, emph⟩
  have hempty : ∀ c ∈ ("" : String).data, allowedCookieChar c := by
    intro c hc; simp [String.data] at hc
  have hslogov : ∀ c ∈ ("slogovcookie=" : String).data, allowedCookieChar c := by
    decide
  have hchast : ∀ c ∈ ("chastcookie=" : String).data, allowedCookieChar c := by
    decide
  have hsemi : ∀ c ∈ (";" : String).data, allowedCookieChar c := by decide
  cases syl <;> cases part <;>
    · unfold build_cookie
      first
        | exact hempty
        | (repeat' apply append_allowed) <;>
            first
              | exact hempty
              | exact hslogov
              | exact hchast
              | exact hsemi
              | exact formatInt_allowed _

theorem allowed_validHeaderChar (c : Char) (h : allowedCookieChar c) :
    validHeaderChar c = true := by
  unfold allowedCookieChar at h
  unfold validHeaderChar
  simp only [Bool.or_eq_true, Bool.and_eq_true, decide_eq_true_eq, bne_iff_ne,
    beq_iff_eq]
  omega

theorem build_cookie_tryFrom (o : RifmeOptions) :
    headerValueTryFrom (build_cookie o) = some (build_cookie o) := by
  unfold headerValueTryFrom
  rw [if_pos]
  rw [List.all_eq_true]
  intro c hc
  exact allowed_validHeaderChar c (build_cookie_allowed o c hc)

/-! ### Shape of the cookie string -/

theorem slogovKey_split : ("slogovcookie=" : String) = "slogovcookie" ++ "=" :=
  rfl

theorem chastKey_split : ("chastcookie=" : String) = "chastcookie" ++ "=" :=
  rfl

theorem build_cookie_eq_cookieSpecString (o : RifmeOptions) :
    build_cookie o = cookieSpecString o := by
  rcases o with ⟨syl, part, emph⟩
  cases syl <;> cases part <;>
    simp only [build_cookie, cookieSpecString, keyValuePair, slogovKey_split,
      chastKey_split, String.empty_append, String.append_empty,
      String.append_assoc]

/-! ### Sequencing a list of `Except` results (the `join_all` + unwrap loop) -/

theorem mapM_map_all_ok {α : Type} (l : List Nat)
    (f : Nat → Except RifmeError (List α)) (g : Nat → List α)
    (h : ∀ s ∈ l, f s = Except.ok (g s)) :
    ((l.map f).mapM id : Except RifmeError (List (List α))) =
      Except.ok (l.map g) := by
  induction l with
  | nil => rfl
  | cons a l ih =>
    rw [List.map_cons, List.mapM_cons, h a (List.mem_cons_self a l),
      ih (fun s hs => h s (List.mem_cons_of_mem a hs))]
    rfl

theorem mapM_map_has_error {α : Type} (l : List Nat)
    (f : Nat → Except RifmeError (List α))
    (h : ∃ s ∈ l, (f s).isOk = false) :
    ∃ e, ((l.map f).mapM id : Except RifmeError (List (List α))) =
      Except.error e := by
  induction l with
  | nil => simp at h
  | cons a l ih =>
    rw [List.map_cons, List.mapM_cons]
    rcases hfa : f a with e | v
    · exact ⟨e, rfl⟩
    · rcases h with ⟨s, hs, hfail⟩
      rcases List.mem_cons.mp hs with rfl | hs'
      · rw [hfa] at hfail; simp [Except.isOk, Except.toBool] at hfail
      · rcases ih ⟨s, hs', hfail⟩ with ⟨e, he⟩
        rw [he]
        exact ⟨e, rfl⟩

/-! ### Extraction: reading `data-w` off every selected list item -/

theorem extract_mapM_ok (l : List Element)
    (h : ∀ el ∈ l, (el.attr "data-w").isSome) :
    (l.mapM (fun li =>
        match li.attr "data-w" with
        | some w => Except.ok w
        | none => Except.error RifmeError.parse) :
      Except RifmeError (List String)) =
      Except.ok (l.filterMap (fun el => el.attr "data-w")) := by
  induction l with
  | nil => rfl
  | cons a l ih =>
    rw [List.mapM_cons]
    obtain ⟨w, hw⟩ := Option.isSome_iff_exists.mp (h a (List.mem_cons_self a l))
    rw [hw, ih (fun el hel => h el (List.mem_cons_of_mem a hel))]
    simp only [List.filterMap_cons, hw]
    rfl

theorem extract_mapM_err (l : List Element)
    (h : ∃ el ∈ l, el.attr "data-w" = none) :
    (l.mapM (fun li =>
        match li.attr "data-w" with
        | some w => Except.ok w
        | none => Except.error RifmeError.parse) :
      Except RifmeError (List String)) = Except.error RifmeError.parse := by
  induction l with
  | nil => simp at h
  | cons a l ih =>
    rw [List.mapM_cons]
    rcases ha : a.attr "data-w" with _ | w
    · rfl
    · rcases h with ⟨el, hel, hnone⟩
      rcases List.mem_cons.mp hel with rfl | hel'
      · rw [ha] at hnone; cases hnone
      · rw [ih ⟨el, hel', hnone⟩]
        rfl

/-! ### The fetch pipeline with the transport abstracted -/

theorem get_page_eq (net : Network) (url : String) (o : RifmeOptions) :
    get_page net url o =
      match net.build with
      | Except.error e => Except.error (RifmeError.network e)
      | Except.ok _ =>
        match net.send url (build_cookie o) with
        | Except.error e => Except.error (RifmeError.network e)
        | Except.ok resp =>
          match net.text resp with
          | Except.error e => Except.error (RifmeError.network e)
          | Except.ok body => Except.ok body := by
  unfold get_page
  rw [build_cookie_tryFrom o]

/-! ### The claims -/

/-- Claim C3: for every `RifmeOptions` value, the cookie string encodes
exactly the present fields as `key=value;` pairs and omits absent fields,
with the syllables pair first and the part-of-speech pair second, the part
encoded as its integer code; it is independent of the emphasis field, and
when both syllables and part are absent it is the empty string. -/
theorem cookie_encodes_present_fields (o : RifmeOptions) (x y : Option Int) :
    build_cookie o = cookieSpecString o ∧
    build_cookie ⟨o.syllables, o.part, x⟩ =
      build_cookie ⟨o.syllables, o.part, y⟩ ∧
    build_cookie ⟨none, none, x⟩ = "" :=
  ⟨build_cookie_eq_cookieSpecString o, rfl, rfl⟩

/-- Claim C7: the request URL is `https://rifme.net/r/<word>` with no
further segment when emphasis is absent, and with `/<emphasis>` appended
when emphasis is present; in particular emphasis 1 appends `/1`. -/
theorem url_emphasis_suffix (word : String) (syl : Option Int)
    (part : Option PartOfSpeech) (e : Int) :
    get_rifme_url word ⟨syl, part, none⟩ = "https://rifme.net/r/" ++ word ∧
    get_rifme_url word ⟨syl, part, some e⟩ =
      ("https://rifme.net/r/" ++ word) ++ "/" ++ formatInt e ∧
    get_rifme_url word ⟨syl, part, some 1⟩ =
      ("https://rifme.net/r/" ++ word) ++ "/1" := by
  refine ⟨rfl, rfl, ?_⟩
  show ("https://rifme.net/r/" ++ word) ++ "/" ++ formatInt 1 =
    ("https://rifme.net/r/" ++ word) ++ "/1"
  rw [String.append_assoc]
  congr 1

/-- Claim C9: every character the cookie encoder can emit is a digit, an
ASCII letter, `=`, `;` or the minus sign, all valid in an HTTP header
value, so `HeaderValue::try_from` on the cookie always succeeds and the
`.unwrap()` at the header-construction site in `get_page` never fails. -/
theorem cookie_header_value_always_valid (o : RifmeOptions) :
    (∀ c ∈ (build_cookie o).data, allowedCookieChar c) ∧
    headerValueTryFrom (build_cookie o) = some (build_cookie o) :=
  ⟨build_cookie_allowed o, build_cookie_tryFrom o⟩

/-- Claim C9 witness: at a concrete option set the cookie converts to a
header value successfully. -/
theorem cookie_header_value_always_valid_witness :
    headerValueTryFrom
        (build_cookie ⟨some 3, some PartOfSpeech.Verb, some 1⟩) =
      some "slogovcookie=3;chastcookie=3;" :=
  ((cookie_header_value_always_valid
      ⟨some 3, some PartOfSpeech.Verb, some 1⟩).2).trans (by decide)

/-- Claim C10: the part-of-speech variants carry the integer codes
`Noun = 1`, `Adj = 2`, `Verb = 3`, `Other = 0`, and those codes are what
the cookie's part-of-speech pair contains. -/
theorem part_of_speech_integer_codes :
    PartOfSpeech.asI8 PartOfSpeech.Noun = 1 ∧
    PartOfSpeech.asI8 PartOfSpeech.Adj = 2 ∧
    PartOfSpeech.asI8 PartOfSpeech.Verb = 3 ∧
    PartOfSpeech.asI8 PartOfSpeech.Other = 0 ∧
    build_cookie ⟨none, some PartOfSpeech.Noun, none⟩ = "chastcookie=1;" ∧
    build_cookie ⟨none, some PartOfSpeech.Adj, none⟩ = "chastcookie=2;" ∧
    build_cookie ⟨none, some PartOfSpeech.Verb, none⟩ = "chastcookie=3;" ∧
    build_cookie ⟨none, some PartOfSpeech.Other, none⟩ = "chastcookie=0;" := by
  refine ⟨rfl, rfl, rfl, rfl, ?_, ?_, ?_, ?_⟩ <;> decide

/-- Claim C4: if any selector-matched list item lacks the `data-w`
attribute, extraction fails for the whole document with the parse error
and no list is returned, even when every other matched element is
well-formed. -/
theorem missing_attr_aborts_extraction (doc : Html)
    (h : ∃ el ∈ doc.filter riLiSelector, el.attr "data-w" = none) :
    get_rhymes doc = Except.error RifmeError.parse := by
  unfold get_rhymes
  exact extract_mapM_err _ h

/-- Claim C4 witness: a document whose middle matching item misses the
attribute aborts the extraction although its siblings are well-formed. -/
theorem missing_attr_aborts_extraction_witness :
    get_rhymes malformedDoc = Except.error RifmeError.parse :=
  missing_attr_aborts_extraction malformedDoc (by decide)

/-- Claim C5: when every selector-matched list item carries the `data-w`
attribute, extraction returns the attribute values in document order. -/
theorem extraction_in_document_order (doc : Html)
    (h : ∀ el ∈ doc.filter riLiSelector, (el.attr "data-w").isSome) :
    get_rhymes doc =
      Except.ok
        ((doc.filter riLiSelector).filterMap (fun el => el.attr "data-w")) := by
  unfold get_rhymes
  exact extract_mapM_ok _ h

/-- Claim C5 witness: three matching items yield their values in document
order, and a document with zero matches yields the empty list, not an
error. -/
theorem extraction_in_document_order_witness :
    get_rhymes threeItemDoc = Except.ok ["а", "б", "в"] ∧
    get_rhymes ([] : Html) = Except.ok [] :=
  ⟨(extraction_in_document_order threeItemDoc (by decide)).trans rfl,
   (extraction_in_document_order [] (by decide)).trans rfl⟩

/-- Claim C6: the page fetch returns the decoded response body exactly
when client construction, transport and body decoding all succeed; a
returned body always comes from such a successful run, and every failure
it reports is a network error. -/
theorem page_fetch_body_or_network_error (net : Network) (url : String)
    (o : RifmeOptions) :
    (∀ resp body, net.build = Except.ok () →
        net.send url (build_cookie o) = Except.ok resp →
        net.text resp = Except.ok body →
        get_page net url o = Except.ok body) ∧
    (∀ body, get_page net url o = Except.ok body →
        net.build = Except.ok () ∧
        ∃ resp, net.send url (build_cookie o) = Except.ok resp ∧
          net.text resp = Except.ok body) ∧
    (∀ e, get_page net url o = Except.error e →
        ∃ msg, e = RifmeError.network msg) := by
  refine ⟨?_, ?_, ?_⟩
  · intro resp body hb hs ht
    rw [get_page_eq]
    simp only [hb, hs, ht]
  · intro body hok
    rw [get_page_eq] at hok
    rcases hb : net.build with eb | u
    · simp [hb] at hok
    · simp only [hb] at hok
      rcases hs : net.send url (build_cookie o) with es | resp
      · simp [hs] at hok
      · simp only [hs] at hok
        rcases ht : net.text resp with et | body'
        · simp [ht] at hok
        · simp only [ht] at hok
          cases hok
          exact ⟨rfl, resp, rfl, ht⟩
  · intro e he
    rw [get_page_eq] at he
    rcases hb : net.build with eb | u
    · simp only [hb] at he
      cases he
      exact ⟨eb, rfl⟩
    · simp only [hb] at he
      rcases hs : net.send url (build_cookie o) with es | resp
      · simp only [hs] at he
        cases he
        exact ⟨es, rfl⟩
      · simp only [hs] at he
        rcases ht : net.text resp with et | body'
        · simp only [ht] at he
          cases he
          exact ⟨et, rfl⟩
        · simp [ht] at he

/-- Claim C6 witness: with the demo transport the fetch returns the
decoded body of the successful run. -/
theorem page_fetch_body_or_network_error_witness :
    get_page demoNet "https://rifme.net/r/w" ⟨none, none, none⟩ =
      Except.ok "" :=
  (page_fetch_body_or_network_error demoNet "https://rifme.net/r/w"
      ⟨none, none, none⟩).1 "" "" rfl rfl rfl

/-- Claim C8: when the syllables option is present and strictly positive,
the program performs exactly the single dispatch+extract cycle with the
given options and returns its result directly, with no fan-out. -/
theorem positive_syllables_single_request (net : Network)
    (parse : String → Html) (word : String) (part : Option PartOfSpeech)
    (emph : Option Int) (v : Int) (hv : 0 < v) :
    rifmeMain net parse ⟨word, some v, part, emph⟩ =
      get_rifme net parse word ⟨some v, part, emph⟩ := by
  have hpos : Option.getD (some v) (-1) > 0 := by simpa using hv
  simp only [rifmeMain]
  rw [if_pos hpos]

/-- Claim C8 witness: syllables 3 runs the single cycle, whose result list
is returned directly. -/
theorem positive_syllables_single_request_witness :
    rifmeMain demoNet demoParse ⟨"w", some 3, none, none⟩ =
      Except.ok ["slogovcookie=3;", "dup"] :=
  (positive_syllables_single_request demoNet demoParse "w" none none 3
      (by decide)).trans rfl

/-- Claim C1: when syllables is absent or non-positive, the program runs
the eight cycles for syllable counts 1..8, each inheriting the part and
emphasis filters, and when all eight succeed the output is the
concatenation of the eight per-syllable result lists in the fixed order
1,...,8, duplicates preserved. -/
theorem fanout_concatenates_in_order (net : Network) (parse : String → Html)
    (word : String) (syl : Option Int) (part : Option PartOfSpeech)
    (emph : Option Int) (results : Nat → List String)
    (hs : syl = none ∨ ∃ v, syl = some v ∧ v ≤ 0)
    (h : ∀ s ∈ List.range' 1 8,
      get_rifme net parse word ⟨some (Int.ofNat s), part, emph⟩ =
        Except.ok (results s)) :
    rifmeMain net parse ⟨word, syl, part, emph⟩ =
      Except.ok (((List.range' 1 8).map results).flatten) := by
  have hneg : ¬(Option.getD syl (-1) > 0) := by
    rcases hs with rfl | ⟨v, rfl, hv⟩
    · decide
    · simp only [Option.getD_some]
      omega
  simp only [rifmeMain]
  rw [if_neg hneg, mapM_map_all_ok (List.range' 1 8) _ results h]
  rfl

/-- Claim C1 witness: with the demo transport each syllable count returns
its own cookie plus the duplicate word `dup`, and the fan-out output is
the eight two-element lists concatenated in syllable order 1..8 with all
eight copies of `dup` preserved. -/
theorem fanout_concatenates_in_order_witness :
    rifmeMain demoNet demoParse ⟨"w", none, none, none⟩ =
      Except.ok ["slogovcookie=1;", "dup", "slogovcookie=2;", "dup",
        "slogovcookie=3;", "dup", "slogovcookie=4;", "dup",
        "slogovcookie=5;", "dup", "slogovcookie=6;", "dup",
        "slogovcookie=7;", "dup", "slogovcookie=8;", "dup"] :=
  (fanout_concatenates_in_order demoNet demoParse "w" none none none
      (fun s => ["slogovcookie=" ++ natRepr s ++ ";", "dup"])
      (Or.inl rfl) (by intro s hs; fin_cases hs <;> rfl)).trans rfl

/-- Claim C2: in fan-out mode (syllables absent or non-positive), if any
one of the eight sub-requests fails, the whole operation fails and no
result list is produced. -/
theorem fanout_fail_fast (net : Network) (parse : String → Html)
    (word : String) (syl : Option Int) (part : Option PartOfSpeech)
    (emph : Option Int)
    (hs : syl = none ∨ ∃ v, syl = some v ∧ v ≤ 0)
    (h : ∃ s ∈ List.range' 1 8,
      (get_rifme net parse word ⟨some (Int.ofNat s), part, emph⟩).isOk =
        false) :
    (rifmeMain net parse ⟨word, syl, part, emph⟩).isOk = false := by
  have hneg : ¬(Option.getD syl (-1) > 0) := by
    rcases hs with rfl | ⟨v, rfl, hv⟩
    · decide
    · simp only [Option.getD_some]
      omega
  simp only [rifmeMain]
  rw [if_neg hneg]
  rcases mapM_map_has_error (List.range' 1 8) _ h with ⟨e, he⟩
  rw [he]
  rfl

/-- Claim C2 witness: a transport failing exactly for the syllable-count-5
sub-request (the other seven succeed) makes the whole fan-out fail. -/
theorem fanout_fail_fast_witness :
    (rifmeMain failNet demoParse ⟨"пять", none, none, none⟩).isOk = false :=
  fanout_fail_fast failNet demoParse "пять" none none none (Or.inl rfl)
    (by decide)
